import Mathlib

/-!
Verification of the diff-ingestion and review pipeline of `scripts/call_gemini.py`.

The script parses a unified diff into per-file change records with tracked
old/new line numbers, sends each changed file to a review service, and posts
one comment per file back to the pull request.  We embed the parsing loop,
the per-file review loop, the response-field extraction, and the publishing
loop as Lean functions, and prove the specified properties about them.

Python string primitives used by the script (`startswith`, `replace`,
`strip`, `splitlines`, slicing `[1:]`) are modelled on `List Char`, following
their documented semantics (ASCII whitespace and the common line terminators;
exotic Unicode terminators are not exercised by any statement below).
-/

namespace PrReview

/-- Characters treated as whitespace by Python's `str.strip`. -/
def pyIsSpace (c : Char) : Bool :=
  c == ' ' || c == '\t' || c == '\n' || c == '\r' || c == '\x0b' || c == '\x0c'

/-- Python `s.strip()` on the character list. -/
def pyStripList (s : List Char) : List Char :=
  ((s.dropWhile pyIsSpace).reverse.dropWhile pyIsSpace).reverse

/-- Python `s.strip()`. -/
def pyStrip (s : String) : String :=
  String.mk (pyStripList s.data)

/-- Python `s.startswith(p)`. -/
def pyStartsWith (s p : String) : Bool :=
  p.data.isPrefixOf s.data

/-- Python `s[1:]`. -/
def pyDrop1 (s : String) : String :=
  String.mk (s.data.drop 1)

/-- Python `s.replace(old, new)` on character lists: scan left to right,
replacing each non-overlapping occurrence of `pat`.  The `fuel` argument
makes the recursion structural; every step consumes at least one character,
so fuel equal to the scanned list's length is always sufficient. -/
def pyReplaceAux (pat repl : List Char) : Nat → List Char → List Char
  | _, [] => []
  | 0, s => s
  | fuel + 1, c :: rest =>
    if pat ≠ [] ∧ pat.isPrefixOf (c :: rest) = true then
      repl ++ pyReplaceAux pat repl fuel (rest.drop (pat.length - 1))
    else
      c :: pyReplaceAux pat repl fuel rest

/-- Python `s.replace(old, new)` on character lists. -/
def pyReplaceList (pat repl s : List Char) : List Char :=
  pyReplaceAux pat repl s.length s

/-- Python `s.replace(old, new)`. -/
def pyReplace (s old new : String) : String :=
  String.mk (pyReplaceList old.data new.data s.data)

/-- Python `s.splitlines()` on character lists: split at `\r\n`, `\r` or
`\n`; the terminators are not kept and a trailing terminator produces no
final empty line. -/
def splitLinesAux : List Char → List Char → List (List Char)
  | [], acc => if acc.isEmpty then [] else [acc.reverse]
  | '\r' :: '\n' :: rest, acc => acc.reverse :: splitLinesAux rest []
  | '\r' :: rest, acc => acc.reverse :: splitLinesAux rest []
  | '\n' :: rest, acc => acc.reverse :: splitLinesAux rest []
  | c :: rest, acc => splitLinesAux rest (c :: acc)

/-- Python `s.splitlines()`. -/
def pySplitlines (s : String) : List String :=
  (splitLinesAux s.data []).map String.mk

/-- Longest run of decimal digits at the front of the list, with the rest. -/
def takeDigits : List Char → List Char × List Char
  | [] => ([], [])
  | c :: rest =>
    if c.isDigit then
      let p := takeDigits rest
      (c :: p.1, p.2)
    else
      ([], c :: rest)

/-- Decimal value of a digit run, as Python `int(...)`. -/
def digitsToNat (ds : List Char) : Nat :=
  ds.foldl (fun n c => n * 10 + (c.toNat - '0'.toNat)) 0

/-- `hunk_regex.match(line)` for the pattern
`@@ -(\d+),?\d* \+(\d+),?\d* @@`, anchored at the start of the line, returning
the two captured groups.  The regex engine's leftmost-greedy matching makes
the first capture the maximal digit run after `-` (up to an optional comma),
and likewise after `+`; trailing text after the closing `@@` is allowed. -/
def hunkRegexMatch (line : String) : Option (Nat × Nat) :=
  match line.data with
  | '@' :: '@' :: ' ' :: '-' :: rest =>
    let p1 := takeDigits rest
    if p1.1.isEmpty then none
    else
      let r2 := match p1.2 with
        | ',' :: t => t
        | r => r
      let q1 := takeDigits r2
      match q1.2 with
      | ' ' :: '+' :: r4 =>
        let p2 := takeDigits r4
        if p2.1.isEmpty then none
        else
          let r6 := match p2.2 with
            | ',' :: t => t
            | r => r
          let q2 := takeDigits r6
          match q2.2 with
          | ' ' :: '@' :: '@' :: _ => some (digitsToNat p1.1, digitsToNat p2.1)
          | _ => none
      | _ => none
  | _ => none

/-- One entry of `pr_diff[file]`: the Python dict
`{"type", "old_line", "new_line", "content"}`. -/
structure Record where
  type : String
  old_line : Option Nat
  new_line : Option Nat
  content : String
deriving DecidableEq, Repr

/-- Lookup in the insertion-ordered mapping `pr_diff` (a Python dict). -/
def lookupFile : List (String × List Record) → String → Option (List Record)
  | [], _ => none
  | (k, v) :: rest, f => if k = f then some v else lookupFile rest f

/-- `pr_diff[f].append(r)`: appends to the sequence of the first (unique)
entry with key `f`; leaves the mapping unchanged when the key is absent
(the parser only appends under keys it has created). -/
def appendRecord : List (String × List Record) → String → Record → List (String × List Record)
  | [], _, _ => []
  | (k, v) :: rest, f, r =>
    if k = f then (k, v ++ [r]) :: rest else (k, v) :: appendRecord rest f r

/-- The mutable state of the parsing loop: the mapping being assembled,
`current_file` (Python `None` as `none`), and the two line cursors. -/
structure ParseState where
  pr_diff : List (String × List Record)
  current_file : Option String
  old_line_num : Nat
  new_line_num : Nat
deriving DecidableEq, Repr

/-- Python truthiness of `current_file`: `None` and the empty string are
falsy. -/
def pyTruthy : Option String → Bool
  | none => false
  | some s => !s.isEmpty

/-- `line.replace("+++ b/", "").strip()`. -/
def extractPath (line : String) : String :=
  pyStrip (pyReplace line "+++ b/" "")

/-- The body of the parsing loop, one iteration per line of the diff. -/
def stepLine (st : ParseState) (line : String) : ParseState :=
  if pyStartsWith line "+++ b/" then
    let cf := extractPath line
    { st with
      current_file := some cf
      pr_diff :=
        if (lookupFile st.pr_diff cf).isSome then st.pr_diff
        else st.pr_diff ++ [(cf, [])] }
  else if pyTruthy st.current_file && pyStartsWith line "@@" then
    match hunkRegexMatch line with
    | some startNums =>
      { st with old_line_num := startNums.1, new_line_num := startNums.2 }
    | none => st
  else if pyTruthy st.current_file then
    if pyStartsWith line "+" && !pyStartsWith line "+++" then
      { st with
        pr_diff := appendRecord st.pr_diff (st.current_file.getD "")
          ⟨"added", none, some st.new_line_num, pyDrop1 line⟩
        new_line_num := st.new_line_num + 1 }
    else if pyStartsWith line "-" && !pyStartsWith line "---" then
      { st with
        pr_diff := appendRecord st.pr_diff (st.current_file.getD "")
          ⟨"deleted", some st.old_line_num, none, pyDrop1 line⟩
        old_line_num := st.old_line_num + 1 }
    else
      { st with
        old_line_num := st.old_line_num + 1
        new_line_num := st.new_line_num + 1 }
  else st

/-- Parser start: empty mapping, no current file, both cursors 0. -/
def initState : ParseState :=
  ⟨[], none, 0, 0⟩

/-- The whole parsing loop over the lines of the diff. -/
def parseLines (lines : List String) : ParseState :=
  lines.foldl stepLine initState

/-- `parse(rawDiff)`: split the raw text into lines and run the loop. -/
def parseDiff (raw : String) : List (String × List Record) :=
  (parseLines (pySplitlines raw)).pr_diff

/-! ### The review pipeline

The loop over `pr_diff.items()` fetches base content, builds the prompt,
calls the review service, extracts the review text from the JSON response
and collects `{"path", "body"}` entries; a second loop posts one comment per
entry.  External collaborators (base-content fetch, the review service's
HTTP transport, the comment endpoint) are passed in as functions. -/

/-- A decoded JSON value, as returned by `resp.json()`. -/
inductive PyVal where
  | str (s : String)
  | num (n : Int)
  | dict (fields : List (String × PyVal))
  | list (items : List PyVal)
  | null
deriving Repr

/-- Python `d.get(key, default)`: on a dict, the value at `key` or the
default; on anything else an `AttributeError`. -/
def pyGet (v : PyVal) (key : String) (default : PyVal) : Except String PyVal :=
  match v with
  | .dict fields =>
    match fields.lookup key with
    | some w => .ok w
    | none => .ok default
  | _ => .error "AttributeError"

/-- Python `v[0]`: the first element of a list, an `IndexError` on an empty
list, a `TypeError` on a non-list. -/
def pyIndex0 (v : PyVal) : Except String PyVal :=
  match v with
  | .list (x :: _) => .ok x
  | .list [] => .error "IndexError"
  | _ => .error "TypeError"

/-- The `ai_comment` extraction:
`resp_json.get("candidates", [{}])[0].get("content", {}).get("parts", [{}])[0].get("text", "No response from Gemini.")`. -/
def extractAiComment (resp_json : PyVal) : Except String PyVal := do
  let cands ← pyGet resp_json "candidates" (.list [.dict []])
  let cand0 ← pyIndex0 cands
  let content ← pyGet cand0 "content" (.dict [])
  let parts ← pyGet content "parts" (.list [.dict []])
  let part0 ← pyIndex0 parts
  pyGet part0 "text" (.str "No response from Gemini.")

/-- Python `str()` as applied by an f-string.  The review service's `"text"`
field is a JSON string, so only the `str` case is exercised; the rendering
of the other cases abbreviates Python's `repr`-based forms. -/
def pyStrOf : PyVal → String
  | .str s => s
  | .num n => toString n
  | .null => "None"
  | .dict _ => "<dict>"
  | .list _ => "<list>"

/-- Python `f"{x}"` for the optional line-number fields. -/
def pyShowOptNat : Option Nat → String
  | some n => toString n
  | none => "None"

/-- One iteration of the inner loop building `diff_lines`. -/
def diffLineFor (c : Record) : Option String :=
  if c.type = "added" then
    some ("+ [L" ++ pyShowOptNat c.new_line ++ "] " ++ c.content)
  else if c.type = "deleted" then
    some ("- [L" ++ pyShowOptNat c.old_line ++ "] " ++ c.content)
  else none

/-- `"\n".join(diff_lines)`. -/
def diffTextFor (changes : List Record) : String :=
  String.intercalate "\n" (changes.filterMap diffLineFor)

/-- `PROMPT_TEMPLATE.format(file_path=..., base_content=..., diff_lines=...)`. -/
def promptFor (file_path base_content diff_lines : String) : String :=
  "\nFile: " ++ file_path ++ "\n\nBase code (for context):\n" ++ base_content
    ++ "\n\nChanges (changes made in this pull request with line numbers):\n"
    ++ diff_lines
    ++ "\n\nYou are a senior engineer reviewing a pull request. Focus ONLY on the changes introduced in this diff.\n\n### What to Look For when reviewing\n\nEvaluate the changes against these areas:\n\n**FastAPI / Backend Concerns**\n- Type hints and return types for endpoints\n- HTTP status codes and response structure\n- Input validation with Pydantic (body, query, path)\n- Async vs sync consistency\n- Dependency injection patterns and separation of concerns\n- Error handling, logging, and exceptions\n- Router structure and module organization\n\n**General Code Quality**\n- Logic errors or potential bugs\n- Edge cases not handled\n- Missing checks for None or invalid inputs\n- Clarity, readability, and maintainability\n\n**Performance & Efficiency**\n- Inefficient operations or redundant calls\n- Database query usage and resource handling\n- Blocking I/O in async contexts\n\n**Security**\n- Input sanitization\n- Injection risks\n- Authentication/Authorization concerns\n- Exposure of sensitive information\n\n**Architecture & Patterns**\n- Reusability and modularity\n- Proper separation of concerns\n\n### Output Rules\n\nRespond with:\n- Bullet points only\n- Include the relevant file and approximate line numbers for each point\n- Use severity levels: CRITICAL, HIGH, MEDIUM, LOW\n- Include short suggestions or mini code snippets only when needed\n- No intros, pleasantries, or meta commentary — start directly with actionable feedback\n- Keep the tone direct, first-person, professional, and polite\n- Be concise and focus strictly on the changes in this pull request\n\n### Output Structure\n\nFollow this format:\n\n**Issues Found:**\n- [SEVERITY] Issue description (file + location)\n- [SEVERITY] Issue description (file + location)\n\n**Suggestions:**\n- Specific improvements or alternatives\n- Short example snippets when relevant\n\n**Positive Notes:**\n- Well-implemented aspects (if any)\n\n"

/-- One entry of `review_comments`. -/
structure ReviewComment where
  path : String
  body : String
deriving DecidableEq, Repr

/-- The per-file review loop.  `gen` is the review service (prompt text to
decoded JSON response body), `base` the base-content fetch (already
degraded to `""` on failure, as `get_base_file_content` does).  Returns the
prompts actually sent, paired with either the collected `review_comments`
or the uncaught Python exception that aborted the loop. -/
def runReviews (gen : String → PyVal) (base : String → String) :
    List (String × List Record) → List String × Except String (List ReviewComment)
  | [] => ([], .ok [])
  | (file_path, changes) :: rest =>
    if changes.isEmpty then runReviews gen base rest
    else
      let prompt := promptFor file_path (base file_path) (diffTextFor changes)
      match extractAiComment (gen prompt) with
      | .error e => ([prompt], .error e)
      | .ok ai =>
        let pr := runReviews gen base rest
        (prompt :: pr.1, pr.2.map (fun cs => ⟨file_path, pyStrOf ai⟩ :: cs))

/-- The comment-publishing loop: one `requests.post` per collected review,
in order.  Returns each posted body paired with the endpoint's response
(status code and text). -/
def postComments (post : String → Nat × String) :
    List ReviewComment → List (String × Nat × String)
  | [] => []
  | c :: rest =>
    let body := "**Review for file:** `" ++ c.path ++ "`\n\n" ++ c.body
    (body, post body) :: postComments post rest

/-- Outcome of a run, from the point where the raw diff text is in hand
(a failed diff fetch terminates earlier and is a collaborator concern). -/
inductive RunOutcome where
  | nothingToReview
  | crashed (e : String)
  | completed (posted : List (String × Nat × String))
deriving Repr

/-- The script from `raw_diff` on: the `not raw_diff.strip()` guard, the
parse, the review loop, the publishing loop. -/
def pipeline (gen : String → PyVal) (base : String → String)
    (post : String → Nat × String) (raw_diff : String) : RunOutcome :=
  if (pyStripList raw_diff.data).isEmpty then .nothingToReview
  else
    match runReviews gen base (parseDiff raw_diff) with
    | (_, .error e) => .crashed e
    | (_, .ok comments) => .completed (postComments post comments)

/-! ### Helper lemmas about the modelled string primitives -/

theorem pyStartsWith_head {l p : String} {d : Char} {u : List Char}
    (hp : p.data = d :: u) (h : pyStartsWith l p = true) :
    ∃ t, l.data = d :: t ∧ u.isPrefixOf t = true := by
  unfold pyStartsWith at h
  rw [hp] at h
  cases hl : l.data with
  | nil => rw [hl] at h; simp [List.isPrefixOf] at h
  | cons c t =>
    rw [hl] at h
    rw [List.isPrefixOf_cons₂] at h
    have hdc : d = c := by
      have := (Bool.and_eq_true _ _).mp h |>.1
      exact eq_of_beq this
    exact ⟨t, by rw [hdc], ((Bool.and_eq_true _ _).mp h).2⟩

theorem pyStartsWith_false_of_head {l p : String} {c d : Char} {t u : List Char}
    (hl : l.data = c :: t) (hp : p.data = d :: u) (hne : d ≠ c) :
    pyStartsWith l p = false := by
  unfold pyStartsWith
  rw [hl, hp, List.isPrefixOf_cons₂]
  simp [hne]

theorem pyStartsWith_trans {l p q : String}
    (hq : q.data <+: p.data) (h : pyStartsWith l p = true) :
    pyStartsWith l q = true := by
  unfold pyStartsWith at h ⊢
  rw [List.isPrefixOf_iff_prefix] at h ⊢
  exact hq.trans h

/-- A line that starts with `"+++ b/"` also starts with `"+++"`. -/
theorem marker_startsWith_plus3 {l : String}
    (h : pyStartsWith l "+++ b/" = true) : pyStartsWith l "+++" = true :=
  pyStartsWith_trans (by decide) h

/-! ### Helper lemmas about the mapping operations -/

theorem lookupFile_appendRecord_self (m : List (String × List Record))
    (f : String) (r : Record) :
    lookupFile (appendRecord m f r) f = (lookupFile m f).map (fun v => v ++ [r]) := by
  induction m with
  | nil => rfl
  | cons kv rest ih =>
    obtain ⟨k, v⟩ := kv
    by_cases hk : k = f
    · simp [appendRecord, lookupFile, hk]
    · simp [appendRecord, lookupFile, hk, ih]

theorem lookupFile_appendRecord_ne (m : List (String × List Record))
    (f k : String) (r : Record) (h : k ≠ f) :
    lookupFile (appendRecord m f r) k = lookupFile m k := by
  induction m with
  | nil => rfl
  | cons kv rest ih =>
    obtain ⟨k', v⟩ := kv
    by_cases hk' : k' = f
    · subst hk'
      simp [appendRecord, lookupFile, Ne.symm h]
    · by_cases hkk : k' = k
      · simp [appendRecord, lookupFile, hk', hkk, h]
      · simp [appendRecord, lookupFile, hk', hkk, ih]

theorem lookupFile_append_of_isSome {m : List (String × List Record)}
    (m' : List (String × List Record)) (k : String)
    (h : (lookupFile m k).isSome = true) :
    lookupFile (m ++ m') k = lookupFile m k := by
  induction m with
  | nil => simp [lookupFile] at h
  | cons kv rest ih =>
    obtain ⟨k', v⟩ := kv
    by_cases hk : k' = k
    · simp [lookupFile, hk]
    · simp only [lookupFile, hk, if_false] at h ⊢
      exact ih h

theorem lookupFile_append_of_none {m : List (String × List Record)}
    (m' : List (String × List Record)) (k : String)
    (h : lookupFile m k = none) :
    lookupFile (m ++ m') k = lookupFile m' k := by
  induction m with
  | nil => rfl
  | cons kv rest ih =>
    obtain ⟨k', v⟩ := kv
    by_cases hk : k' = k
    · subst hk
      simp [lookupFile] at h
    · simp only [lookupFile, hk, if_false] at h
      simp only [List.cons_append, lookupFile, hk, if_false]
      exact ih h

theorem lookupFile_mem {m : List (String × List Record)} {f : String}
    {recs : List Record} (h : lookupFile m f = some recs) : (f, recs) ∈ m := by
  induction m with
  | nil => simp [lookupFile] at h
  | cons kv rest ih =>
    obtain ⟨k, v⟩ := kv
    by_cases hk : k = f
    · subst hk
      simp [lookupFile] at h
      simp [h]
    · simp only [lookupFile, hk, if_false] at h
      exact List.mem_cons_of_mem _ (ih h)

/-- Membership in an `appendRecord` result: every stored record either was
already stored, or is the appended one. -/
theorem appendRecord_mem {m : List (String × List Record)} {f : String}
    {r : Record} {e : String × List Record} (he : e ∈ appendRecord m f r) :
    (∀ x ∈ e.2, (∃ e' ∈ m, x ∈ e'.2) ∨ x = r) := by
  induction m with
  | nil => simp [appendRecord] at he
  | cons kv rest ih =>
    obtain ⟨k, v⟩ := kv
    by_cases hk : k = f
    · simp only [appendRecord, hk, if_true] at he
      rcases List.mem_cons.mp he with rfl | he
      · intro x hx
        rcases List.mem_append.mp hx with hx | hx
        · exact Or.inl ⟨(k, v), List.mem_cons_self _ _, hx⟩
        · simp at hx
          exact Or.inr hx
      · intro x hx
        exact Or.inl ⟨e, List.mem_cons_of_mem _ he, hx⟩
    · simp only [appendRecord, hk, if_false] at he
      rcases List.mem_cons.mp he with rfl | he
      · intro x hx
        exact Or.inl ⟨(k, v), List.mem_cons_self _ _, hx⟩
      · intro x hx
        rcases ih he x hx with ⟨e', he', hx'⟩ | hx'
        · exact Or.inl ⟨e', List.mem_cons_of_mem _ he', hx'⟩
        · exact Or.inr hx'

/-! ### Branch lemmas for one parsing step -/

theorem hunkRegexMatch_data {line : String} {o n : Nat}
    (h : hunkRegexMatch line = some (o, n)) :
    ∃ t, line.data = '@' :: '@' :: ' ' :: '-' :: t := by
  unfold hunkRegexMatch at h
  split at h
  · next t heq => exact ⟨t, heq⟩
  · exact absurd h (by simp)

theorem stepLine_marker (st : ParseState) {line : String}
    (h : pyStartsWith line "+++ b/" = true) :
    stepLine st line =
      { st with
        current_file := some (extractPath line)
        pr_diff :=
          if (lookupFile st.pr_diff (extractPath line)).isSome then st.pr_diff
          else st.pr_diff ++ [(extractPath line, [])] } := by
  simp [stepLine, h]

theorem step_hunk_set {st : ParseState} {line : String} {o n : Nat}
    (hcf : pyTruthy st.current_file = true)
    (hm : hunkRegexMatch line = some (o, n)) :
    stepLine st line = { st with old_line_num := o, new_line_num := n } := by
  obtain ⟨t, hd⟩ := hunkRegexMatch_data hm
  have h0 : pyStartsWith line "+++ b/" = false :=
    pyStartsWith_false_of_head hd rfl (by decide)
  have h1 : pyStartsWith line "@@" = true := by
    unfold pyStartsWith
    rw [hd]
    rfl
  simp [stepLine, h0, hcf, h1, hm]

theorem step_hunk_nomatch {st : ParseState} {line : String}
    (h1 : pyStartsWith line "@@" = true) (hm : hunkRegexMatch line = none) :
    stepLine st line = st := by
  obtain ⟨t, hd, -⟩ := pyStartsWith_head rfl h1
  have h0 : pyStartsWith line "+++ b/" = false :=
    pyStartsWith_false_of_head hd rfl (by decide)
  cases ht : pyTruthy st.current_file with
  | true => simp [stepLine, h0, ht, h1, hm]
  | false => simp [stepLine, h0, ht, h1]

theorem step_added {st : ParseState} {line p : String}
    (hcf : st.current_file = some p) (ht : pyTruthy st.current_file = true)
    (h1 : pyStartsWith line "+" = true) (h3 : pyStartsWith line "+++" = false) :
    stepLine st line =
      { st with
        pr_diff := appendRecord st.pr_diff p
          ⟨"added", none, some st.new_line_num, pyDrop1 line⟩
        new_line_num := st.new_line_num + 1 } := by
  obtain ⟨t, hd, -⟩ := pyStartsWith_head rfl h1
  have h0 : pyStartsWith line "+++ b/" = false := by
    cases hq : pyStartsWith line "+++ b/" with
    | false => rfl
    | true => exact absurd (marker_startsWith_plus3 hq) (by simp [h3])
  have h2 : pyStartsWith line "@@" = false :=
    pyStartsWith_false_of_head hd rfl (by decide)
  rw [hcf] at ht
  simp [stepLine, h0, h2, h1, h3, hcf, ht]

theorem step_deleted {st : ParseState} {line p : String}
    (hcf : st.current_file = some p) (ht : pyTruthy st.current_file = true)
    (h1 : pyStartsWith line "-" = true) (h3 : pyStartsWith line "---" = false) :
    stepLine st line =
      { st with
        pr_diff := appendRecord st.pr_diff p
          ⟨"deleted", some st.old_line_num, none, pyDrop1 line⟩
        old_line_num := st.old_line_num + 1 } := by
  obtain ⟨t, hd, -⟩ := pyStartsWith_head rfl h1
  have h0 : pyStartsWith line "+++ b/" = false :=
    pyStartsWith_false_of_head hd rfl (by decide)
  have h2 : pyStartsWith line "@@" = false :=
    pyStartsWith_false_of_head hd rfl (by decide)
  have h4 : pyStartsWith line "+" = false :=
    pyStartsWith_false_of_head hd rfl (by decide)
  rw [hcf] at ht
  simp [stepLine, h0, h2, h4, h1, h3, hcf, ht]

theorem step_context {st : ParseState} {line : String}
    (ht : pyTruthy st.current_file = true)
    (h0 : pyStartsWith line "+++ b/" = false)
    (h1 : pyStartsWith line "@@" = false)
    (h2 : (pyStartsWith line "+" && !pyStartsWith line "+++") = false)
    (h3 : (pyStartsWith line "-" && !pyStartsWith line "---") = false) :
    stepLine st line =
      { st with
        old_line_num := st.old_line_num + 1
        new_line_num := st.new_line_num + 1 } := by
  simp [stepLine, h0, ht, h1, h2, h3]

theorem step_nofile {st : ParseState} {line : String}
    (h : st.current_file = none) (h0 : pyStartsWith line "+++ b/" = false) :
    stepLine st line = st := by
  simp [stepLine, h0, h, pyTruthy]

/-- The mapping after one step is the old mapping, the old mapping with one
fresh empty entry at the end, or the old mapping with one added/deleted
record appended under some key. -/
theorem stepLine_shape (st : ParseState) (line : String) :
    (stepLine st line).pr_diff = st.pr_diff
    ∨ (∃ cf, (stepLine st line).pr_diff = st.pr_diff ++ [(cf, [])])
    ∨ (∃ f, (stepLine st line).pr_diff
        = appendRecord st.pr_diff f ⟨"added", none, some st.new_line_num, pyDrop1 line⟩)
    ∨ (∃ f, (stepLine st line).pr_diff
        = appendRecord st.pr_diff f ⟨"deleted", some st.old_line_num, none, pyDrop1 line⟩) := by
  unfold stepLine
  split
  · dsimp only
    split
    · exact Or.inl rfl
    · exact Or.inr (Or.inl ⟨_, rfl⟩)
  · split
    · split
      · exact Or.inl rfl
      · exact Or.inl rfl
    · split
      · split
        · exact Or.inr (Or.inr (Or.inl ⟨_, rfl⟩))
        · split
          · exact Or.inr (Or.inr (Or.inr ⟨_, rfl⟩))
          · exact Or.inl rfl
      · exact Or.inl rfl

theorem appendRecord_key {m : List (String × List Record)} {f k : String}
    {r : Record} (h : (lookupFile m k).isSome = true) :
    (lookupFile (appendRecord m f r) k).isSome = true := by
  by_cases hk : k = f
  · subst hk
    obtain ⟨v, hv⟩ := Option.isSome_iff_exists.mp h
    rw [lookupFile_appendRecord_self, hv]
    rfl
  · rw [lookupFile_appendRecord_ne _ _ _ _ hk]
    exact h

theorem stepLine_preserves_key {st : ParseState} (line : String) {k : String}
    (h : (lookupFile st.pr_diff k).isSome = true) :
    (lookupFile (stepLine st line).pr_diff k).isSome = true := by
  rcases stepLine_shape st line with heq | ⟨cf, heq⟩ | ⟨f, heq⟩ | ⟨f, heq⟩ <;> rw [heq]
  · exact h
  · rw [lookupFile_append_of_isSome _ _ h]
    exact h
  · exact appendRecord_key h
  · exact appendRecord_key h

theorem foldl_preserves_key (lines : List String) :
    ∀ (st : ParseState) (k : String), (lookupFile st.pr_diff k).isSome = true →
      (lookupFile (lines.foldl stepLine st).pr_diff k).isSome = true := by
  induction lines with
  | nil => exact fun st k h => h
  | cons l ls ih => exact fun st k h => ih _ _ (stepLine_preserves_key l h)

theorem stepLine_marker_key {st : ParseState} {line : String}
    (h : pyStartsWith line "+++ b/" = true) :
    (lookupFile (stepLine st line).pr_diff (extractPath line)).isSome = true := by
  rw [stepLine_marker st h]
  by_cases hin : (lookupFile st.pr_diff (extractPath line)).isSome = true
  · simp [hin]
  · have hnone : lookupFile st.pr_diff (extractPath line) = none := by
      cases hq : lookupFile st.pr_diff (extractPath line) with
      | none => rfl
      | some v => exact absurd (by rw [hq]; rfl) hin
    have hfalse : (lookupFile st.pr_diff (extractPath line)).isSome = false := by
      rw [hnone]
      rfl
    simp only [hfalse, Bool.false_eq_true, if_false]
    rw [lookupFile_append_of_none _ _ hnone]
    simp [lookupFile]

/-- Well-formedness of a stored record: its two shapes as built by the
classification branch. -/
def recordOK (r : Record) : Prop :=
  (r.type = "added" ∧ r.old_line = none) ∨ (r.type = "deleted" ∧ r.new_line = none)

/-- All records stored anywhere in the mapping are well-formed. -/
def mappingOK (m : List (String × List Record)) : Prop :=
  ∀ e ∈ m, ∀ r ∈ e.2, recordOK r

theorem mappingOK_append_empty {m : List (String × List Record)} (cf : String)
    (h : mappingOK m) : mappingOK (m ++ [(cf, [])]) := by
  intro e he r hr
  rcases List.mem_append.mp he with he | he
  · exact h e he r hr
  · simp at he
    rw [he] at hr
    simp at hr

theorem mappingOK_appendRecord {m : List (String × List Record)} {f : String}
    {r : Record} (h : mappingOK m) (hr : recordOK r) :
    mappingOK (appendRecord m f r) := by
  intro e he x hx
  rcases appendRecord_mem he x hx with ⟨e', he', hx'⟩ | hx'
  · exact h e' he' x hx'
  · rw [hx']
    exact hr

theorem stepLine_mappingOK {st : ParseState} (line : String)
    (h : mappingOK st.pr_diff) : mappingOK (stepLine st line).pr_diff := by
  rcases stepLine_shape st line with heq | ⟨cf, heq⟩ | ⟨f, heq⟩ | ⟨f, heq⟩ <;> rw [heq]
  · exact h
  · exact mappingOK_append_empty cf h
  · exact mappingOK_appendRecord h (Or.inl ⟨rfl, rfl⟩)
  · exact mappingOK_appendRecord h (Or.inr ⟨rfl, rfl⟩)

theorem parse_mappingOK (lines : List String) :
    mappingOK (parseLines lines).pr_diff := by
  unfold parseLines
  have step : ∀ (ls : List String) (st : ParseState), mappingOK st.pr_diff →
      mappingOK (ls.foldl stepLine st).pr_diff := by
    intro ls
    induction ls with
    | nil => exact fun st h => h
    | cons l ls2 ih => exact fun st h => ih _ (stepLine_mappingOK l h)
  exact step _ initState (by intro e he r hr; simp [initState] at he)

/-! ### Lemmas about `splitlines` and `strip` for the empty-diff guard -/

/-- Every character of every line produced by `splitLinesAux` comes from the
accumulator or from the remaining input. -/
theorem splitLinesAux_chars (s acc : List Char) :
    ∀ l ∈ splitLinesAux s acc, ∀ c ∈ l, c ∈ acc ∨ c ∈ s := by
  induction s, acc using splitLinesAux.induct with
  | case1 acc hacc =>
    intro l hl
    simp [splitLinesAux, hacc] at hl
  | case2 acc hacc =>
    intro l hl c hc
    simp [splitLinesAux, hacc] at hl
    subst hl
    exact Or.inl (List.mem_reverse.mp hc)
  | case3 rest acc ih =>
    intro l hl c hc
    simp only [splitLinesAux, List.mem_cons] at hl
    rcases hl with rfl | hl
    · exact Or.inl (List.mem_reverse.mp hc)
    · rcases ih l hl c hc with h | h
      · simp at h
      · right
        simp [h]
  | case4 rest acc hne ih =>
    intro l hl c hc
    rw [splitLinesAux] at hl
    rotate_left
    · exact fun r hr => hne r hr
    rcases List.mem_cons.mp hl with rfl | hl
    · exact Or.inl (List.mem_reverse.mp hc)
    · rcases ih l hl c hc with h | h
      · simp at h
      · right
        simp [h]
  | case5 rest acc ih =>
    intro l hl c hc
    simp only [splitLinesAux, List.mem_cons] at hl
    rcases hl with rfl | hl
    · exact Or.inl (List.mem_reverse.mp hc)
    · rcases ih l hl c hc with h | h
      · simp at h
      · right
        simp [h]
  | case6 d rest acc h1 h2 h3 ih =>
    intro l hl c hc
    rw [splitLinesAux] at hl
    rotate_left
    · exact h1
    · exact h2
    · exact h3
    rcases ih l hl c hc with h | h
    · rcases List.mem_cons.mp h with rfl | h
      · right
        exact List.mem_cons_self _ _
      · exact Or.inl h
    · right
      exact List.mem_cons_of_mem _ h

/-- A line of an all-whitespace text cannot carry the `+++ b/` marker. -/
theorem pySplitlines_no_marker {raw : String}
    (h : ∀ c ∈ raw.data, pyIsSpace c = true) :
    ∀ l ∈ pySplitlines raw, pyStartsWith l "+++ b/" = false := by
  intro l hl
  obtain ⟨ll, hmem, hmk⟩ : ∃ ll, ll ∈ splitLinesAux raw.data [] ∧ String.mk ll = l := by
    simpa [pySplitlines] using hl
  cases hst : pyStartsWith l "+++ b/" with
  | false => rfl
  | true =>
    obtain ⟨t, hd, -⟩ := pyStartsWith_head rfl hst
    have hplus : '+' ∈ ll := by
      have hll : ll = '+' :: t := by
        have : l.data = '+' :: t := hd
        rw [← hmk] at this
        exact this
      rw [hll]
      exact List.mem_cons_self _ _
    rcases splitLinesAux_chars raw.data [] ll hmem '+' hplus with hc | hc
    · simp at hc
    · have := h '+' hc
      simp [pyIsSpace] at this

theorem dropWhile_of_all {p : Char → Bool} (l : List Char)
    (h : ∀ c ∈ l, p c = true) : l.dropWhile p = [] := by
  induction l with
  | nil => rfl
  | cons c t ih =>
    rw [List.dropWhile_cons_of_pos (h c (List.mem_cons_self _ _))]
    exact ih fun d hd => h d (List.mem_cons_of_mem _ hd)

theorem pyStripList_of_all_space {s : List Char}
    (h : ∀ c ∈ s, pyIsSpace c = true) : pyStripList s = [] := by
  unfold pyStripList
  rw [dropWhile_of_all s h]
  rfl

/-- Lines none of which is a `+++ b/` marker leave a file-less state
untouched. -/
theorem foldl_no_marker (lines : List String) (st : ParseState)
    (hcf : st.current_file = none)
    (h : ∀ l ∈ lines, pyStartsWith l "+++ b/" = false) :
    lines.foldl stepLine st = st := by
  induction lines with
  | nil => rfl
  | cons l ls ih =>
    rw [List.foldl_cons, step_nofile hcf (h l (List.mem_cons_self _ _))]
    exact ih fun l2 hl2 => h l2 (List.mem_cons_of_mem _ hl2)

/-! ### The claims -/

/-- C1: For the input diff with file marker `+++ b/app.py`, hunk header
`@@ -10,2 +10,3 @@` and then the lines ` def f():`, `-    return 1`,
`+    return 2`, `+    return 3`, the parse returns for `app.py` exactly
three records in order: one Deleted record with old line 11 and content
`    return 1`, then two Added records with new lines 11 and 12; the context
line ` def f():` advances both cursors from 10 to 11 and emits no record. -/
theorem example_diff_parse :
    (parseLines ["+++ b/app.py", "@@ -10,2 +10,3 @@", " def f():",
        "-    return 1", "+    return 2", "+    return 3"]).pr_diff
      = [("app.py",
          [⟨"deleted", some 11, none, "    return 1"⟩,
           ⟨"added", none, some 11, "    return 2"⟩,
           ⟨"added", none, some 12, "    return 3"⟩])]
    ∧ parseLines ["+++ b/app.py", "@@ -10,2 +10,3 @@"]
        = ⟨[("app.py", [])], some "app.py", 10, 10⟩
    ∧ parseLines ["+++ b/app.py", "@@ -10,2 +10,3 @@", " def f():"]
        = ⟨[("app.py", [])], some "app.py", 11, 11⟩ :=
  ⟨rfl, rfl, rfl⟩

/-- C2: A line matching the hunk-header pattern, consumed while a current
file is set, sets the old and new cursors to the header's declared start
values (leaving the mapping and current file unchanged), so the next
deleted line is recorded at `oldStart`, the next added line at `newStart`,
and a context line consumes exactly those positions; a line starting with
`@@` whose numbers do not match the pattern leaves both cursors (and the
whole state) unchanged. -/
theorem hunk_header_cursor_ctrl :
    (∀ (st : ParseState) (line : String) (o n : Nat),
        pyTruthy st.current_file = true → hunkRegexMatch line = some (o, n) →
        (stepLine st line).old_line_num = o
          ∧ (stepLine st line).new_line_num = n
          ∧ (stepLine st line).pr_diff = st.pr_diff
          ∧ (stepLine st line).current_file = st.current_file)
    ∧ (∀ (st : ParseState) (line : String),
        pyStartsWith line "@@" = true → hunkRegexMatch line = none →
        stepLine st line = st)
    ∧ (∀ (st : ParseState) (line p : String),
        st.current_file = some p → pyTruthy st.current_file = true →
        pyStartsWith line "-" = true → pyStartsWith line "---" = false →
        lookupFile (stepLine st line).pr_diff p
          = (lookupFile st.pr_diff p).map
              (fun v => v ++ [⟨"deleted", some st.old_line_num, none, pyDrop1 line⟩]))
    ∧ (∀ (st : ParseState) (line p : String),
        st.current_file = some p → pyTruthy st.current_file = true →
        pyStartsWith line "+" = true → pyStartsWith line "+++" = false →
        lookupFile (stepLine st line).pr_diff p
          = (lookupFile st.pr_diff p).map
              (fun v => v ++ [⟨"added", none, some st.new_line_num, pyDrop1 line⟩]))
    ∧ (∀ (st : ParseState) (line : String),
        pyTruthy st.current_file = true →
        pyStartsWith line "+++ b/" = false → pyStartsWith line "@@" = false →
        (pyStartsWith line "+" && !pyStartsWith line "+++") = false →
        (pyStartsWith line "-" && !pyStartsWith line "---") = false →
        (stepLine st line).old_line_num = st.old_line_num + 1
          ∧ (stepLine st line).new_line_num = st.new_line_num + 1
          ∧ (stepLine st line).pr_diff = st.pr_diff) := by
  refine ⟨?_, ?_, ?_, ?_, ?_⟩
  · intro st line o n hcf hm
    rw [step_hunk_set hcf hm]
    exact ⟨rfl, rfl, rfl, rfl⟩
  · intro st line h1 hm
    exact step_hunk_nomatch h1 hm
  · intro st line p hcf ht h1 h3
    rw [step_deleted hcf ht h1 h3]
    exact lookupFile_appendRecord_self _ _ _
  · intro st line p hcf ht h1 h3
    rw [step_added hcf ht h1 h3]
    exact lookupFile_appendRecord_self _ _ _
  · intro st line ht h0 h1 h2 h3
    rw [step_context ht h0 h1 h2 h3]
    exact ⟨rfl, rfl, rfl⟩

/-- Witness for C2 at concrete inputs: the header `@@ -5,2 +7,3 @@` sets the
cursors of a state holding file `a.py` to 5 and 7; the malformed header
`@@ oops @@` leaves the state unchanged; a deleted, an added and a context
line consume the expected cursor positions. -/
theorem hunk_header_cursor_ctrl_witness :
    ((stepLine ⟨[("a.py", [])], some "a.py", 3, 4⟩ "@@ -5,2 +7,3 @@").old_line_num = 5
      ∧ (stepLine ⟨[("a.py", [])], some "a.py", 3, 4⟩ "@@ -5,2 +7,3 @@").new_line_num = 7
      ∧ (stepLine ⟨[("a.py", [])], some "a.py", 3, 4⟩ "@@ -5,2 +7,3 @@").pr_diff
          = [("a.py", [])]
      ∧ (stepLine ⟨[("a.py", [])], some "a.py", 3, 4⟩ "@@ -5,2 +7,3 @@").current_file
          = some "a.py")
    ∧ stepLine ⟨[("a.py", [])], some "a.py", 3, 4⟩ "@@ oops @@"
        = ⟨[("a.py", [])], some "a.py", 3, 4⟩
    ∧ lookupFile (stepLine ⟨[("a.py", [])], some "a.py", 5, 7⟩ "-x").pr_diff "a.py"
        = (lookupFile [("a.py", [])] "a.py").map
            (fun v => v ++ [⟨"deleted", some 5, none, pyDrop1 "-x"⟩])
    ∧ lookupFile (stepLine ⟨[("a.py", [])], some "a.py", 5, 7⟩ "+y").pr_diff "a.py"
        = (lookupFile [("a.py", [])] "a.py").map
            (fun v => v ++ [⟨"added", none, some 7, pyDrop1 "+y"⟩])
    ∧ ((stepLine ⟨[("a.py", [])], some "a.py", 5, 7⟩ " ctx").old_line_num = 6
      ∧ (stepLine ⟨[("a.py", [])], some "a.py", 5, 7⟩ " ctx").new_line_num = 8
      ∧ (stepLine ⟨[("a.py", [])], some "a.py", 5, 7⟩ " ctx").pr_diff
          = [("a.py", [])]) :=
  ⟨hunk_header_cursor_ctrl.1 ⟨[("a.py", [])], some "a.py", 3, 4⟩ "@@ -5,2 +7,3 @@" 5 7
      rfl rfl,
   hunk_header_cursor_ctrl.2.1 ⟨[("a.py", [])], some "a.py", 3, 4⟩ "@@ oops @@" rfl rfl,
   hunk_header_cursor_ctrl.2.2.1 ⟨[("a.py", [])], some "a.py", 5, 7⟩ "-x" "a.py"
      rfl rfl rfl rfl,
   hunk_header_cursor_ctrl.2.2.2.1 ⟨[("a.py", [])], some "a.py", 5, 7⟩ "+y" "a.py"
      rfl rfl rfl rfl,
   hunk_header_cursor_ctrl.2.2.2.2 ⟨[("a.py", [])], some "a.py", 5, 7⟩ " ctx"
      rfl rfl rfl rfl rfl⟩

/-- C3: Every record stored by the parser is well-formed — an Added record
carries no old line and a Deleted record carries no new line — and each
consumed line advances the cursors by exactly one position: a deleted line
is recorded at the current old cursor and advances it by 1, an added line at
the current new cursor advancing it by 1, and a context line advances both
by 1, so oldLine values of consecutive Deleted-or-Context lines of a hunk
increase by exactly 1 per line consumed, likewise newLine values for
Added-or-Context lines. -/
theorem record_fields_monotone :
    (∀ (lines : List String) (f : String) (recs : List Record),
        lookupFile (parseLines lines).pr_diff f = some recs →
        ∀ r ∈ recs, (r.type = "added" → r.old_line = none)
          ∧ (r.type = "deleted" → r.new_line = none))
    ∧ (∀ (st : ParseState) (line p : String),
        st.current_file = some p → pyTruthy st.current_file = true →
        pyStartsWith line "-" = true → pyStartsWith line "---" = false →
        (stepLine st line).old_line_num = st.old_line_num + 1
          ∧ (stepLine st line).new_line_num = st.new_line_num
          ∧ lookupFile (stepLine st line).pr_diff p
              = (lookupFile st.pr_diff p).map
                  (fun v => v ++ [⟨"deleted", some st.old_line_num, none, pyDrop1 line⟩]))
    ∧ (∀ (st : ParseState) (line p : String),
        st.current_file = some p → pyTruthy st.current_file = true →
        pyStartsWith line "+" = true → pyStartsWith line "+++" = false →
        (stepLine st line).new_line_num = st.new_line_num + 1
          ∧ (stepLine st line).old_line_num = st.old_line_num
          ∧ lookupFile (stepLine st line).pr_diff p
              = (lookupFile st.pr_diff p).map
                  (fun v => v ++ [⟨"added", none, some st.new_line_num, pyDrop1 line⟩]))
    ∧ (∀ (st : ParseState) (line : String),
        pyTruthy st.current_file = true →
        pyStartsWith line "+++ b/" = false → pyStartsWith line "@@" = false →
        (pyStartsWith line "+" && !pyStartsWith line "+++") = false →
        (pyStartsWith line "-" && !pyStartsWith line "---") = false →
        (stepLine st line).old_line_num = st.old_line_num + 1
          ∧ (stepLine st line).new_line_num = st.new_line_num + 1) := by
  refine ⟨?_, ?_, ?_, ?_⟩
  · intro lines f recs h r hr
    rcases parse_mappingOK lines (f, recs) (lookupFile_mem h) r hr with ⟨ha, ho⟩ | ⟨hd, hn⟩
    · exact ⟨fun _ => ho, fun hdel => absurd (ha.symm.trans hdel) (by decide)⟩
    · exact ⟨fun hadd => absurd (hd.symm.trans hadd) (by decide), fun _ => hn⟩
  · intro st line p hcf ht h1 h3
    rw [step_deleted hcf ht h1 h3]
    exact ⟨rfl, rfl, lookupFile_appendRecord_self _ _ _⟩
  · intro st line p hcf ht h1 h3
    rw [step_added hcf ht h1 h3]
    exact ⟨rfl, rfl, lookupFile_appendRecord_self _ _ _⟩
  · intro st line ht h0 h1 h2 h3
    rw [step_context ht h0 h1 h2 h3]
    exact ⟨rfl, rfl⟩

/-- Witness for C3 at concrete inputs: the record shapes of the parsed
example diff, and the cursor advances of a deleted, an added and a context
line from a concrete state. -/
theorem record_fields_monotone_witness :
    (((⟨"deleted", some 11, none, "    return 1"⟩ : Record).type = "added" →
        (⟨"deleted", some 11, none, "    return 1"⟩ : Record).old_line = none)
      ∧ ((⟨"deleted", some 11, none, "    return 1"⟩ : Record).type = "deleted" →
        (⟨"deleted", some 11, none, "    return 1"⟩ : Record).new_line = none))
    ∧ ((stepLine ⟨[("a.py", [])], some "a.py", 5, 7⟩ "-x").old_line_num = 6
      ∧ (stepLine ⟨[("a.py", [])], some "a.py", 5, 7⟩ "-x").new_line_num = 7
      ∧ lookupFile (stepLine ⟨[("a.py", [])], some "a.py", 5, 7⟩ "-x").pr_diff "a.py"
          = (lookupFile [("a.py", [])] "a.py").map
              (fun v => v ++ [⟨"deleted", some 5, none, pyDrop1 "-x"⟩]))
    ∧ ((stepLine ⟨[("a.py", [])], some "a.py", 5, 7⟩ "+y").new_line_num = 8
      ∧ (stepLine ⟨[("a.py", [])], some "a.py", 5, 7⟩ "+y").old_line_num = 5
      ∧ lookupFile (stepLine ⟨[("a.py", [])], some "a.py", 5, 7⟩ "+y").pr_diff "a.py"
          = (lookupFile [("a.py", [])] "a.py").map
              (fun v => v ++ [⟨"added", none, some 7, pyDrop1 "+y"⟩]))
    ∧ ((stepLine ⟨[("a.py", [])], some "a.py", 5, 7⟩ " ctx").old_line_num = 6
      ∧ (stepLine ⟨[("a.py", [])], some "a.py", 5, 7⟩ " ctx").new_line_num = 8) :=
  ⟨record_fields_monotone.1
      ["+++ b/app.py", "@@ -10,2 +10,3 @@", " def f():",
        "-    return 1", "+    return 2", "+    return 3"] "app.py"
      [⟨"deleted", some 11, none, "    return 1"⟩,
       ⟨"added", none, some 11, "    return 2"⟩,
       ⟨"added", none, some 12, "    return 3"⟩] rfl
      ⟨"deleted", some 11, none, "    return 1"⟩ (List.mem_cons_self _ _),
   record_fields_monotone.2.1 ⟨[("a.py", [])], some "a.py", 5, 7⟩ "-x" "a.py"
      rfl rfl rfl rfl,
   record_fields_monotone.2.2.1 ⟨[("a.py", [])], some "a.py", 5, 7⟩ "+y" "a.py"
      rfl rfl rfl rfl,
   record_fields_monotone.2.2.2 ⟨[("a.py", [])], some "a.py", 5, 7⟩ " ctx"
      rfl rfl rfl rfl rfl⟩

/-- C7: Every file path introduced by a `+++ b/` marker line appears as a
key of the output mapping, even if its record sequence is empty; a second
marker for an already-present path leaves the mapping unchanged (the
existing sequence is preserved, never overwritten) while making that path
current again, and subsequent change records are appended to the existing
sequence. -/
theorem marker_completeness :
    (∀ (lines : List String) (l : String), l ∈ lines →
        pyStartsWith l "+++ b/" = true →
        (lookupFile (parseLines lines).pr_diff (extractPath l)).isSome = true)
    ∧ (∀ (st : ParseState) (l : String) (v : List Record),
        pyStartsWith l "+++ b/" = true →
        lookupFile st.pr_diff (extractPath l) = some v →
        (stepLine st l).pr_diff = st.pr_diff
          ∧ (stepLine st l).current_file = some (extractPath l))
    ∧ (∀ (st : ParseState) (p : String) (v : List Record) (line : String),
        st.current_file = some p → pyTruthy st.current_file = true →
        lookupFile st.pr_diff p = some v →
        pyStartsWith line "+" = true → pyStartsWith line "+++" = false →
        lookupFile (stepLine st line).pr_diff p
          = some (v ++ [⟨"added", none, some st.new_line_num, pyDrop1 line⟩])) := by
  refine ⟨?_, ?_, ?_⟩
  · intro lines l hl hm
    obtain ⟨pre, post, rfl⟩ := List.append_of_mem hl
    unfold parseLines
    rw [List.foldl_append, List.foldl_cons]
    exact foldl_preserves_key post _ _ (stepLine_marker_key hm)
  · intro st l v hm hv
    rw [stepLine_marker st hm]
    have hs : (lookupFile st.pr_diff (extractPath l)).isSome = true := by
      rw [hv]
      rfl
    exact ⟨by simp [hs], rfl⟩
  · intro st p v line hcf ht hv h1 h3
    rw [step_added hcf ht h1 h3]
    dsimp only
    rw [lookupFile_appendRecord_self, hv]
    rfl

/-- Witness for C7 at concrete inputs: the path of a marker line is a key of
the parse result; a repeated marker for `app.py` preserves the stored
sequence; an added line is appended after the existing record. -/
theorem marker_completeness_witness :
    (lookupFile (parseLines ["+++ b/app.py", "+x"]).pr_diff
        (extractPath "+++ b/app.py")).isSome = true
    ∧ ((stepLine ⟨[("app.py", [⟨"added", none, some 0, "x"⟩])], some "app.py", 1, 1⟩
          "+++ b/app.py").pr_diff = [("app.py", [⟨"added", none, some 0, "x"⟩])]
      ∧ (stepLine ⟨[("app.py", [⟨"added", none, some 0, "x"⟩])], some "app.py", 1, 1⟩
          "+++ b/app.py").current_file = some (extractPath "+++ b/app.py"))
    ∧ lookupFile (stepLine ⟨[("app.py", [⟨"added", none, some 0, "x"⟩])],
          some "app.py", 1, 1⟩ "+z").pr_diff "app.py"
        = some ([⟨"added", none, some 0, "x"⟩]
            ++ [⟨"added", none, some 1, pyDrop1 "+z"⟩]) :=
  ⟨marker_completeness.1 ["+++ b/app.py", "+x"] "+++ b/app.py"
      (List.mem_cons_self _ _) rfl,
   marker_completeness.2.1
      ⟨[("app.py", [⟨"added", none, some 0, "x"⟩])], some "app.py", 1, 1⟩
      "+++ b/app.py" [⟨"added", none, some 0, "x"⟩] rfl rfl,
   marker_completeness.2.2
      ⟨[("app.py", [⟨"added", none, some 0, "x"⟩])], some "app.py", 1, 1⟩
      "app.py" [⟨"added", none, some 0, "x"⟩] "+z" rfl rfl rfl rfl rfl⟩

/-- C9: For empty raw diff text — empty or whitespace-only — the parse
output mapping is empty, no error is raised, the pipeline terminates with
the nothing-to-review outcome, and zero comments are published (the
publishing loop is never reached). -/
theorem empty_diff_run (raw : String) (gen : String → PyVal)
    (base : String → String) (post : String → Nat × String)
    (h : ∀ c ∈ raw.data, pyIsSpace c = true) :
    pipeline gen base post raw = RunOutcome.nothingToReview
      ∧ parseDiff raw = [] ∧ parseDiff "" = [] := by
  refine ⟨?_, ?_, rfl⟩
  · unfold pipeline
    rw [pyStripList_of_all_space h]
    rfl
  · unfold parseDiff parseLines
    rw [foldl_no_marker _ _ rfl (pySplitlines_no_marker h)]
    rfl

/-- Witness for C9 at a concrete whitespace-only raw diff. -/
theorem empty_diff_run_witness :
    pipeline (fun _ => PyVal.dict []) (fun _ => "") (fun _ => (201, "")) " \n\t "
        = RunOutcome.nothingToReview
      ∧ parseDiff " \n\t " = [] ∧ parseDiff "" = [] :=
  empty_diff_run " \n\t " (fun _ => PyVal.dict []) (fun _ => "")
    (fun _ => (201, "")) (by decide)

/-- C10: A `+++ /dev/null` section (a deleted file) creates no mapping entry
and does not change the current file: lines before any `+++ b/` marker are
all ignored (the state is untouched), while after an earlier `+++ b/<p>`
marker the section's hunk headers still reset the cursors and its `-` lines
are appended as Deleted records to file `p`'s sequence. -/
theorem dev_null_sections :
    (∀ st : ParseState, (stepLine st "+++ /dev/null").pr_diff = st.pr_diff
        ∧ (stepLine st "+++ /dev/null").current_file = st.current_file)
    ∧ (∀ (st : ParseState) (lines : List String), st.current_file = none →
        (∀ l ∈ lines, pyStartsWith l "+++ b/" = false) →
        lines.foldl stepLine st = st)
    ∧ (∀ (st : ParseState) (line : String) (o n : Nat),
        pyTruthy st.current_file = true → hunkRegexMatch line = some (o, n) →
        (stepLine st line).old_line_num = o
          ∧ (stepLine st line).new_line_num = n
          ∧ (stepLine st line).pr_diff = st.pr_diff)
    ∧ (∀ (st : ParseState) (line p : String),
        st.current_file = some p → pyTruthy st.current_file = true →
        pyStartsWith line "-" = true → pyStartsWith line "---" = false →
        lookupFile (stepLine st line).pr_diff p
          = (lookupFile st.pr_diff p).map
              (fun v => v ++ [⟨"deleted", some st.old_line_num, none, pyDrop1 line⟩])) := by
  refine ⟨?_, ?_, ?_, ?_⟩
  · intro st
    have e0 : pyStartsWith "+++ /dev/null" "+++ b/" = false := by decide
    cases ht : pyTruthy st.current_file with
    | true =>
      rw [step_context ht e0 (by decide) (by decide) (by decide)]
      exact ⟨rfl, rfl⟩
    | false => simp [stepLine, e0, ht]
  · intro st lines hcf h
    exact foldl_no_marker lines st hcf h
  · intro st line o n ht hm
    rw [step_hunk_set ht hm]
    exact ⟨rfl, rfl, rfl⟩
  · intro st line p hcf ht h1 h3
    rw [step_deleted hcf ht h1 h3]
    exact lookupFile_appendRecord_self _ _ _

/-- Witness for C10 at concrete inputs, including a whole deleted-file
section consumed before any `+++ b/` marker. -/
theorem dev_null_sections_witness :
    ((stepLine ⟨[("a.py", [])], some "a.py", 5, 7⟩ "+++ /dev/null").pr_diff
        = [("a.py", [])]
      ∧ (stepLine ⟨[("a.py", [])], some "a.py", 5, 7⟩ "+++ /dev/null").current_file
        = some "a.py")
    ∧ ["--- a/dead.py", "+++ /dev/null", "@@ -1,2 +0,0 @@", "-gone"].foldl stepLine
        ⟨[], none, 0, 0⟩ = ⟨[], none, 0, 0⟩
    ∧ ((stepLine ⟨[("a.py", [])], some "a.py", 5, 7⟩ "@@ -1,2 +0,0 @@").old_line_num = 1
      ∧ (stepLine ⟨[("a.py", [])], some "a.py", 5, 7⟩ "@@ -1,2 +0,0 @@").new_line_num = 0
      ∧ (stepLine ⟨[("a.py", [])], some "a.py", 5, 7⟩ "@@ -1,2 +0,0 @@").pr_diff
          = [("a.py", [])])
    ∧ lookupFile (stepLine ⟨[("a.py", [])], some "a.py", 1, 0⟩ "-gone").pr_diff "a.py"
        = (lookupFile [("a.py", [])] "a.py").map
            (fun v => v ++ [⟨"deleted", some 1, none, pyDrop1 "-gone"⟩]) :=
  ⟨dev_null_sections.1 ⟨[("a.py", [])], some "a.py", 5, 7⟩,
   dev_null_sections.2.1 ⟨[], none, 0, 0⟩
      ["--- a/dead.py", "+++ /dev/null", "@@ -1,2 +0,0 @@", "-gone"] rfl (by decide),
   dev_null_sections.2.2.1 ⟨[("a.py", [])], some "a.py", 5, 7⟩ "@@ -1,2 +0,0 @@" 1 0
      rfl rfl,
   dev_null_sections.2.2.2 ⟨[("a.py", [])], some "a.py", 1, 0⟩ "-gone" "a.py"
      rfl rfl rfl rfl⟩

/-- C4 (refuting the claim as stated): a review-service response whose
`candidates` list is empty — valid JSON, so reachable with a success
status — makes the `ai_comment` extraction raise an uncaught `IndexError`
(`.get("candidates", [{}])[0]` indexes the empty list), aborting the run so
that no remaining file's result is produced; only a response merely missing
the expected keys degrades to the fallback string as documented. -/
theorem empty_candidates_crash :
    extractAiComment (PyVal.dict [("candidates", PyVal.list [])])
        = Except.error "IndexError"
    ∧ extractAiComment (PyVal.dict [])
        = Except.ok (PyVal.str "No response from Gemini.")
    ∧ (runReviews (fun _ => PyVal.dict [("candidates", PyVal.list [])]) (fun _ => "")
          [("a.py", [⟨"added", none, some 1, "x"⟩]),
           ("b.py", [⟨"added", none, some 1, "y"⟩])]).2
        = Except.error "IndexError"
    ∧ (∀ (base : String → String) (post : String → Nat × String),
        pipeline (fun _ => PyVal.dict [("candidates", PyVal.list [])]) base post
            "+++ b/a.py\n@@ -1,0 +1,1 @@\n+x"
          = RunOutcome.crashed "IndexError") :=
  ⟨rfl, rfl, rfl, fun _ _ => rfl⟩

/-- C5 counterexample: a file whose content lines appear with zero hunk
headers before them is NOT skipped — its `+` line is recorded with the
default cursor value 0, the file's record sequence is non-empty, so the
review loop sends exactly one prompt for it and produces a ReviewResult. -/
theorem no_header_not_skipped :
    (parseLines ["+++ b/x.py", "+foo"]).pr_diff
        = [("x.py", [⟨"added", none, some 0, "foo"⟩])]
    ∧ (runReviews (fun _ => PyVal.dict []) (fun _ => "")
          (parseLines ["+++ b/x.py", "+foo"]).pr_diff).1.length = 1
    ∧ (runReviews (fun _ => PyVal.dict []) (fun _ => "")
          (parseLines ["+++ b/x.py", "+foo"]).pr_diff).2
        = Except.ok [⟨"x.py", "No response from Gemini."⟩] :=
  ⟨rfl, rfl, rfl⟩

/-- C5 amended: when a file's content lines appear with zero hunk headers
before them, the parser emits records whose line numbers are counted from
the current cursors — the defaults 0/0 at parser start — the file (having a
non-empty sequence) IS fed to the review pipeline, and the condition is not
fatal to the run, which completes and publishes the file's comment. -/
theorem default_cursor_records (c : String)
    (h3 : pyStartsWith ("+" ++ c) "+++" = false) :
    (parseLines ["+++ b/app.py", "+" ++ c]).pr_diff
        = [("app.py", [⟨"added", none, some 0, c⟩])]
    ∧ initState.old_line_num = 0 ∧ initState.new_line_num = 0
    ∧ (∀ (gen : String → PyVal) (base : String → String),
        (runReviews gen base
            (parseLines ["+++ b/app.py", "+" ++ c]).pr_diff).1.length = 1)
    ∧ (∀ (base : String → String) (post : String → Nat × String),
        pipeline (fun _ => PyVal.dict []) base post "+++ b/app.py\n+x"
          = RunOutcome.completed
              [("**Review for file:** `app.py`\n\nNo response from Gemini.",
                post "**Review for file:** `app.py`\n\nNo response from Gemini.")]) := by
  have hpd : (parseLines ["+++ b/app.py", "+" ++ c]).pr_diff
      = [("app.py", [⟨"added", none, some 0, c⟩])] := by
    have hstep : parseLines ["+++ b/app.py", "+" ++ c]
        = stepLine ⟨[("app.py", [])], some "app.py", 0, 0⟩ ("+" ++ c) := rfl
    have h1 : pyStartsWith ("+" ++ c) "+" = true := by
      unfold pyStartsWith
      rw [show ("+" ++ c).data = '+' :: c.data from rfl]
      rw [show ("+").data = ['+'] from rfl]
      simp [List.isPrefixOf]
    have hadd := @step_added ⟨[("app.py", [])], some "app.py", 0, 0⟩ ("+" ++ c)
      "app.py" rfl rfl h1 h3
    rw [hstep, hadd]
    rfl
  refine ⟨hpd, rfl, rfl, ?_, fun _ _ => rfl⟩
  intro gen base
  rw [hpd]
  rcases hE : extractAiComment (gen (promptFor "app.py" (base "app.py")
      (diffTextFor [⟨"added", none, some 0, c⟩]))) with e | ai <;>
    simp [runReviews, hE]

/-- Witness for C5's amended theorem at the content line `+foo`. -/
theorem default_cursor_records_witness :
    (parseLines ["+++ b/app.py", "+" ++ "foo"]).pr_diff
        = [("app.py", [⟨"added", none, some 0, "foo"⟩])]
    ∧ initState.old_line_num = 0 ∧ initState.new_line_num = 0
    ∧ (∀ (gen : String → PyVal) (base : String → String),
        (runReviews gen base
            (parseLines ["+++ b/app.py", "+" ++ "foo"]).pr_diff).1.length = 1)
    ∧ (∀ (base : String → String) (post : String → Nat × String),
        pipeline (fun _ => PyVal.dict []) base post "+++ b/app.py\n+x"
          = RunOutcome.completed
              [("**Review for file:** `app.py`\n\nNo response from Gemini.",
                post "**Review for file:** `app.py`\n\nNo response from Gemini.")]) :=
  default_cursor_records "foo" rfl

/-- C6 counterexample: the published body is NOT
`"**Review for file:** <path>\n\n<reviewText>"` — the code wraps the path in
backticks. -/
theorem comment_body_backticks :
    (postComments (fun _ => (201, "")) [⟨"a.py", "ok"⟩]).map Prod.fst
      ≠ ["**Review for file:** a.py\n\nok"] := by
  decide

/-- C6 amended: exactly one comment-post call is made per published
ReviewResult, in order, and its body is exactly
`"**Review for file:** "` followed by the path wrapped in backticks, a blank
line, and the review text. -/
theorem comment_body_format (post : String → Nat × String)
    (comments : List ReviewComment) :
    (postComments post comments).length = comments.length
    ∧ ∀ (i : Nat) (hi : i < comments.length)
        (hi2 : i < (postComments post comments).length),
        ((postComments post comments).get ⟨i, hi2⟩).1
          = "**Review for file:** `" ++ (comments.get ⟨i, hi⟩).path ++ "`\n\n"
              ++ (comments.get ⟨i, hi⟩).body := by
  induction comments with
  | nil => exact ⟨rfl, fun i hi _ => absurd hi (Nat.not_lt_zero i)⟩
  | cons cm rest ih =>
    refine ⟨?_, ?_⟩
    · simp only [postComments, List.length_cons, ih.1]
    · intro i hi hi2
      cases i with
      | zero => rfl
      | succ j =>
        have hj : j < rest.length := Nat.lt_of_succ_lt_succ hi
        have hj2 : j < (postComments post rest).length := by
          rw [ih.1]
          exact hj
        exact ih.2 j hj hj2

/-- Witness for C6's amended theorem at one concrete review result. -/
theorem comment_body_format_witness :
    (postComments (fun _ => (201, "")) [⟨"a.py", "ok"⟩]).length = 1
    ∧ ((postComments (fun _ => (201, "")) [⟨"a.py", "ok"⟩]).get ⟨0, by decide⟩).1
        = "**Review for file:** `" ++ "a.py" ++ "`\n\n" ++ "ok" :=
  ⟨(comment_body_format (fun _ => (201, "")) [⟨"a.py", "ok"⟩]).1,
   (comment_body_format (fun _ => (201, "")) [⟨"a.py", "ok"⟩]).2 0 (by decide)
      (by decide)⟩

/-- C8: a file whose change-record sequence is empty is skipped without
error: removing such an entry changes neither the prompts sent to the
review service nor the produced ReviewResults, so no review call and no
result is ever made for it. -/
theorem empty_changes_skipped (gen : String → PyVal) (base : String → String)
    (fp : String) (pre suf : List (String × List Record)) :
    runReviews gen base (pre ++ (fp, []) :: suf)
      = runReviews gen base (pre ++ suf) := by
  induction pre with
  | nil => simp [runReviews]
  | cons e rest ih =>
    obtain ⟨f, ch⟩ := e
    by_cases hch : ch.isEmpty
    · simp only [List.cons_append, runReviews, hch, if_true]
      exact ih
    · simp only [List.cons_append]
      simp [runReviews, hch, ih]

end PrReview
